import Mathlib

/-!
Verification of the tsds-biome command dispatcher.

The development shallowly embeds the mode-detection and dispatch logic of
src/src/command.ts and its duplicate in src/unnamed/part_000 (the function
there is called worker; its body is line-for-line the same as run).

Modelling conventions, kept uniform below:
- The filesystem state relevant to one invocation is what fs.existsSync and
  fs.readFileSync + JSON.parse yield for workingDirectory/biome.json; it is
  represented by the type ConfigFile (file absent, present but unparsable,
  or present with a parse result).
- Parse results are JSValue terms.  JSON numbers are modelled as integers:
  in the code under study a number only ever flows into positions where all
  numbers behave alike (indexOf is missing on every number, every nonzero
  number is truthy, a number used as a loop bound only matters through the
  naturals below it), so nothing observable to the theorems is lost.
- JavaScript exceptions are explicit: inspection of the parse result is a
  function into Except Unit Mode, and the try/catch of the source becomes a
  match on that result inside detectMode.
- External collaborators that the specification places out of scope
  (getopts argument parsing, resolve-bin-sync, require.resolve of the
  default configuration, process globals) enter as fields of Env holding
  the value the collaborator returned for this invocation.
- A dispatch outcome is an Action: the console lines printed plus either a
  direct completion-callback invocation or a single hand-off of command,
  argument list, options and callback to the spawn collaborator.  Each Eff
  constructor carries the completion callback exactly once by construction.
-/

namespace TsdsBiome

/-- Values produced by a successful JSON.parse of biome.json. -/
inductive JSValue where
  | null
  | bool (b : Bool)
  | num (n : Int)
  | str (s : String)
  | arr (elems : List JSValue)
  | obj (fields : List (String × JSValue))

/-- The two modes detectMode can return: the string literals
bundled and legacy of the source. -/
inductive Mode where
  | bundled
  | legacy
  deriving DecidableEq

/-- JavaScript hay.indexOf(needle) >= 0 for strings: the needle occurs as a
contiguous substring of the haystack. -/
def strContainsSub (hay needle : String) : Bool :=
  (List.range (hay.length + 1)).any (fun i => needle.data.isPrefixOf (hay.data.drop i))

/-- Field lookup on a parsed JSON object.  JSON.parse results carry unique
keys (later duplicates in the text overwrite earlier ones before the value
is returned), so first-match lookup is unambiguous. -/
def jsLookup (fields : List (String × JSValue)) (k : String) : Option JSValue :=
  (fields.find? (fun kv => kv.1 == k)).map (fun kv => kv.2)

/-- The property read biomeJson.extends.  Reading a property of null raises
a TypeError (Except.error); primitives and arrays have no extends property,
which yields undefined (none); on an object it is field lookup. -/
def getExtendsField : JSValue → Except Unit (Option JSValue)
  | .null => .error ()
  | .obj fields => .ok (jsLookup fields "extends")
  | _ => .ok none

/-- JavaScript falsiness of a parse-result value.  undefined is handled by
the caller (an absent field is none). -/
def jsFalsy : JSValue → Bool
  | .null => true
  | .bool b => !b
  | .num n => n == 0
  | .str s => s == ""
  | _ => false

/-- The expression biomeJson.extends || []: an undefined or falsy left side
is replaced by the empty array. -/
def orEmptyArray : Option JSValue → JSValue
  | none => .arr []
  | some v => if jsFalsy v then .arr [] else v

/-- One loop step extendsArr[i].indexOf of the marker, tested >= 0.
A string entry succeeds when the marker is a substring.  An array entry has
Array.prototype.indexOf, which uses strict equality, so only an element
that is exactly the marker string matches.  Numbers, booleans and plain
objects have no indexOf method and null has no properties at all, so the
call raises a TypeError. -/
def entryMatches : JSValue → Except Unit Bool
  | .str s => .ok (strContainsSub s "tsds-config")
  | .arr elems =>
      .ok (elems.any (fun y => match y with
        | .str s => s == "tsds-config"
        | _ => false))
  | _ => .error ()

/-- Number of iterations of the for loop when extendsArr is an object: the
loop condition compares the counter against the length property.  An absent
length is undefined and the comparison is false at once; a numeric length
admits exactly the naturals below it; a string length goes through
ToNumber, modelled for integer literals (every other string is NaN and
stops the loop, which the 0 in the fallback also does); true converts to 1
and false to 0; null converts to 0.  Array and object lengths would go
through ToPrimitive; that coercion is not modelled and those configurations
appear in no theorem below. -/
def loopBound : Option JSValue → Nat
  | none => 0
  | some (.num n) => n.toNat
  | some (.str s) => (match s.toInt? with | some k => k.toNat | none => 0)
  | some (.bool b) => if b then 1 else 0
  | some .null => 0
  | some (.arr _) => 0
  | some (.obj _) => 0

/-- The sequence of element reads extendsArr[i] the for loop performs, each
either a value or a raised error.  An array yields its elements; a nonempty
string (the only kind that can reach the loop, empty strings being falsy)
is indexed character by character, each read producing a one-character
string; an object is read at the keys 0, 1, ... up to its coerced length,
a missing key giving undefined whose indexOf then raises; numbers and
booleans have an undefined length, so the loop body never runs; null
cannot reach this point (it is falsy and was replaced by the empty
array). -/
def loopEntries : JSValue → List (Except Unit JSValue)
  | .arr elems => elems.map .ok
  | .str s => s.data.map (fun c => .ok (.str (String.singleton c)))
  | .obj fields =>
      (List.range (loopBound (jsLookup fields "length"))).map
        (fun i => match jsLookup fields (toString i) with
          | some v => .ok v
          | none => .error ())
  | _ => []

/-- The for loop over the element reads: the first raised error aborts with
an exception; the first matching entry returns bundled; a completed loop
falls through, after which the function returns legacy. -/
def scanEntries : List (Except Unit JSValue) → Except Unit Mode
  | [] => .ok .legacy
  | .error _ :: _ => .error ()
  | .ok v :: rest =>
      (match entryMatches v with
        | .error _ => .error ()
        | .ok true => .ok .bundled
        | .ok false => scanEntries rest)

/-- The body of the try block of detectMode applied to the parse result,
together with the trailing return: read extends, default it to the empty
array, run the loop. -/
def inspectExtends (config : JSValue) : Except Unit Mode :=
  match getExtendsField config with
  | .error _ => .error ()
  | .ok ext => scanEntries (loopEntries (orEmptyArray ext))

/-- State of workingDirectory/biome.json as one invocation observes it:
absent, present but JSON.parse raises, or present with parse result v. -/
inductive ConfigFile where
  | absent
  | unparsable
  | parsed (v : JSValue)

/-- fs.existsSync at the biome.json path. -/
def existsSyncBiome : ConfigFile → Bool
  | .absent => false
  | _ => true

/-- detectMode of src/src/command.ts: bundled when the file is absent;
otherwise the try block inspects the parse result and the catch turns any
raised error, the parse failure included, into the trailing return of
legacy. -/
def detectMode : ConfigFile → Mode
  | .absent => .bundled
  | .unparsable => .legacy
  | .parsed v =>
      (match inspectExtends v with
        | .ok m => m
        | .error _ => .legacy)

/-- The options record handed to run.  Only cwd is ever read; the remaining
fields are carried opaquely through the object spread, stood in for by
extra. -/
structure CommandOptions where
  cwd : Option String
  extra : Nat
  deriving DecidableEq

/-- Everything one invocation of run observes: process globals, the raw
argument list, the getopts parse of that list (argument parsing is an
external collaborator), the options record, the biome.json state at the
resolved working directory, and the collaborator results for binary and
default-configuration resolution. -/
structure Env where
  platform : String
  ostype : Option String
  arch : String
  args : List String
  optDryRun : Bool
  optLegacy : Bool
  options : CommandOptions
  processCwd : String
  configFile : ConfigFile
  biomeBin : String
  defaultConfig : Option String

/-- The isWindows constant: platform is win32, or the OSTYPE environment
variable matches the anchored alternation of msys and cygwin exactly. -/
def isWindows (e : Env) : Bool :=
  e.platform == "win32" || e.ostype == some "msys" || e.ostype == some "cygwin"

/-- The expression (options.cwd as string) || process.cwd(): an absent or
empty cwd falls back to the process working directory. -/
def resolvedCwd (e : Env) : String :=
  match e.options.cwd with
  | some s => if s == "" then e.processCwd else s
  | none => e.processCwd

/-- The object spread { ...options, cwd }: the caller options with the cwd
field replaced by the resolved working directory. -/
def mergedOptions (e : Env) : CommandOptions :=
  { cwd := some (resolvedCwd e), extra := e.options.extra }

/-- Observable effect of one dispatch: either the completion callback is
invoked directly, or the command, argument list, merged options and the
callback are handed to the spawn collaborator.  Either constructor uses
the callback exactly once. -/
inductive Eff where
  | callback
  | spawn (cmd : String) (args : List String) (opts : CommandOptions)
  deriving DecidableEq

/-- A dispatch outcome: console lines printed, then the terminal effect. -/
structure Action where
  logs : List String
  eff : Eff
  deriving DecidableEq

/-- How many times an effect uses the completion callback: a direct
invocation once, a hand-off to the spawn collaborator once. -/
def callbackUses : Eff → Nat
  | .callback => 1
  | .spawn _ _ _ => 1

/-- The filter of the forwarding loop: an argument is copied through unless
it is one of the three control flags. -/
def keepArg (a : String) : Bool :=
  a != "--legacy" && a != "--dry-run" && a != "-d"

/-- The spawnArgs array as built in the bundled branch: the fixed three
tokens, then, when no local biome.json exists and the default
configuration resolves, the config-path flag and the resolved path, then
every caller argument the filter keeps, in input order. -/
def bundledSpawnArgs (e : Env) : List String :=
  (["check", "--write", "--unsafe"]
    ++ (if existsSyncBiome e.configFile then []
        else match e.defaultConfig with
          | some p => ["--config-path", p]
          | none => []))
    ++ e.args.filter keepArg

/-- Console line of the dry-run branch. -/
def dryRunMsg : String := "Dry-run: would format code with biome"

/-- Console line of both legacy branches. -/
def legacyMsg : String := "[tsds-biome] Using legacy mode (npm run format)"

/-- Second console line of the auto-detected legacy branch. -/
def migrateMsg : String := "[tsds-biome] To migrate: extend tsds-config/biome.json in your biome.json"

/-- run of src/src/command.ts: the platform guard, then the dry-run flag,
then the explicit legacy flag, then the detected mode, then the bundled
invocation. -/
def run (e : Env) : Action :=
  if isWindows e && !(["x64", "arm64"].contains e.arch) then
    { logs := [], eff := .callback }
  else if e.optDryRun then
    { logs := [dryRunMsg], eff := .callback }
  else if e.optLegacy then
    { logs := [legacyMsg], eff := .spawn "npm" ["run", "format"] (mergedOptions e) }
  else if detectMode e.configFile = Mode.legacy then
    { logs := [legacyMsg, migrateMsg], eff := .spawn "npm" ["run", "format"] (mergedOptions e) }
  else
    { logs := [], eff := .spawn e.biomeBin (bundledSpawnArgs e) (mergedOptions e) }

/-- detectMode of src/unnamed/part_000, a separate translation of the
duplicated source text. -/
def detectModeW : ConfigFile → Mode
  | .absent => .bundled
  | .unparsable => .legacy
  | .parsed v =>
      (match inspectExtends v with
        | .ok m => m
        | .error _ => .legacy)

/-- The spawnArgs array as built in the bundled branch of worker in
src/unnamed/part_000. -/
def bundledSpawnArgsW (e : Env) : List String :=
  (["check", "--write", "--unsafe"]
    ++ (if existsSyncBiome e.configFile then []
        else match e.defaultConfig with
          | some p => ["--config-path", p]
          | none => []))
    ++ e.args.filter keepArg

/-- worker of src/unnamed/part_000, a separate translation of the
duplicated source text of run. -/
def runW (e : Env) : Action :=
  if isWindows e && !(["x64", "arm64"].contains e.arch) then
    { logs := [], eff := .callback }
  else if e.optDryRun then
    { logs := [dryRunMsg], eff := .callback }
  else if e.optLegacy then
    { logs := [legacyMsg], eff := .spawn "npm" ["run", "format"] (mergedOptions e) }
  else if detectModeW e.configFile = Mode.legacy then
    { logs := [legacyMsg, migrateMsg], eff := .spawn "npm" ["run", "format"] (mergedOptions e) }
  else
    { logs := [], eff := .spawn e.biomeBin (bundledSpawnArgsW e) (mergedOptions e) }

/-- Spec-level reading of a parsed configuration, following the words of
the specification rather than the source: the extends list of the parsed
value, treated as empty when the field is absent (a non-object parse
result has no fields), and defined only when the field, if present, is an
array of strings. -/
def asStringList : List JSValue → Option (List String)
  | [] => some []
  | .str s :: rest => (asStringList rest).map (fun l => s :: l)
  | _ :: _ => none

/-- Spec-level extends list of a parse result; see asStringList. -/
def specExtendsList : JSValue → Option (List String)
  | .obj fields =>
      (match jsLookup fields "extends" with
        | none => some []
        | some (.arr elems) => asStringList elems
        | some _ => none)
  | _ => some []

/-- Helper: on a list of element reads that are all strings, the loop
returns bundled exactly when some string contains the marker, and legacy
otherwise, raising nothing. -/
theorem scanEntries_strings (elems : List JSValue) (l : List String)
    (h : asStringList elems = some l) :
    scanEntries (elems.map .ok)
      = if l.any (fun s => strContainsSub s "tsds-config") then Except.ok Mode.bundled
        else Except.ok Mode.legacy := by
  induction elems generalizing l with
  | nil =>
    simp only [asStringList, Option.some.injEq] at h
    subst h
    simp [scanEntries]
  | cons x rest ih =>
    cases x with
    | str s =>
      simp only [asStringList, Option.map_eq_some'] at h
      obtain ⟨l2, hl2, hcons⟩ := h
      subst hcons
      cases hc : strContainsSub s "tsds-config" with
      | true => simp [scanEntries, entryMatches, hc]
      | false => simp [scanEntries, entryMatches, hc, ih l2 hl2]
    | null => exact absurd h (by simp [asStringList])
    | bool b => exact absurd h (by simp [asStringList])
    | num n => exact absurd h (by simp [asStringList])
    | arr a => exact absurd h (by simp [asStringList])
    | obj f => exact absurd h (by simp [asStringList])

/-- Helper: on a parse result whose spec-level extends list is defined,
detectMode computes the marker test over that list. -/
theorem detectMode_parsed_eval (v : JSValue) (l : List String)
    (h : specExtendsList v = some l) :
    detectMode (ConfigFile.parsed v)
      = if l.any (fun s => strContainsSub s "tsds-config") then Mode.bundled
        else Mode.legacy := by
  cases v with
  | null =>
    simp only [specExtendsList, Option.some.injEq] at h
    subst h
    simp [detectMode, inspectExtends, getExtendsField]
  | bool b =>
    simp only [specExtendsList, Option.some.injEq] at h
    subst h
    simp [detectMode, inspectExtends, getExtendsField, orEmptyArray, loopEntries, scanEntries]
  | num n =>
    simp only [specExtendsList, Option.some.injEq] at h
    subst h
    simp [detectMode, inspectExtends, getExtendsField, orEmptyArray, loopEntries, scanEntries]
  | str s =>
    simp only [specExtendsList, Option.some.injEq] at h
    subst h
    simp [detectMode, inspectExtends, getExtendsField, orEmptyArray, loopEntries, scanEntries]
  | arr a =>
    simp only [specExtendsList, Option.some.injEq] at h
    subst h
    simp [detectMode, inspectExtends, getExtendsField, orEmptyArray, loopEntries, scanEntries]
  | obj fields =>
    simp only [specExtendsList] at h
    cases hx : jsLookup fields "extends" with
    | none =>
      rw [hx] at h
      simp only [Option.some.injEq] at h
      subst h
      simp [detectMode, inspectExtends, getExtendsField, hx, orEmptyArray, loopEntries,
        scanEntries]
    | some w =>
      rw [hx] at h
      cases w with
      | arr elems =>
        simp only at h
        have hs := scanEntries_strings elems l h
        have hv : inspectExtends (JSValue.obj fields)
            = if l.any (fun s => strContainsSub s "tsds-config") then Except.ok Mode.bundled
              else Except.ok Mode.legacy := by
          simp [inspectExtends, getExtendsField, hx, orEmptyArray, jsFalsy, loopEntries, hs]
        cases hb : l.any (fun s => strContainsSub s "tsds-config") with
        | true => simp [detectMode, hv, hb]
        | false => simp [detectMode, hv, hb]
      | null => exact absurd h (by simp)
      | bool b => exact absurd h (by simp)
      | num n => exact absurd h (by simp)
      | str s => exact absurd h (by simp)
      | obj f => exact absurd h (by simp)

/-- Claim C1: for every working directory with no biome.json (the absent
configuration state), detectMode returns bundled. -/
theorem detectMode_absent_bundled : detectMode ConfigFile.absent = Mode.bundled := rfl

/-- Claim C2: when biome.json exists but its content fails to parse as
JSON, detectMode returns legacy; the failure is caught inside detectMode,
which is a total function into Mode, so no error reaches the caller. -/
theorem detectMode_unparsable_legacy : detectMode ConfigFile.unparsable = Mode.legacy := rfl

/-- Claim C3, counterexample: the configuration with extends equal to
[5, "tsds-config"] parses successfully and its extends list has an entry
containing the marker substring, yet detectMode returns legacy, not
bundled: the loop raises a TypeError on the numeric entry before reaching
the matching string, and the catch falls through to legacy. -/
theorem detectMode_mixed_extends_cex :
    detectMode (ConfigFile.parsed (JSValue.obj
      [("extends", JSValue.arr [JSValue.num 5, JSValue.str "tsds-config"])])) = Mode.legacy
    ∧ strContainsSub "tsds-config" "tsds-config" = true := ⟨rfl, rfl⟩

/-- Claim C3, amended: for every successfully parsed configuration whose
extends field is absent or an array of strings (the spec-level extends
list is defined), detectMode returns bundled if and only if some entry of
that list contains the substring tsds-config; otherwise it returns
legacy. -/
theorem detectMode_wellTyped_extends (v : JSValue) (l : List String)
    (h : specExtendsList v = some l) :
    detectMode (ConfigFile.parsed v) = Mode.bundled
      ↔ ∃ s ∈ l, strContainsSub s "tsds-config" = true := by
  rw [detectMode_parsed_eval v l h]
  cases hb : l.any (fun s => strContainsSub s "tsds-config") with
  | true =>
    refine iff_of_true (by simp) ?_
    rcases List.any_eq_true.mp hb with ⟨s, hs1, hs2⟩
    exact ⟨s, hs1, hs2⟩
  | false =>
    refine iff_of_false (by simp) ?_
    rintro ⟨s, hs1, hs2⟩
    have hany : l.any (fun s => strContainsSub s "tsds-config") = true :=
      List.any_eq_true.mpr ⟨s, hs1, hs2⟩
    rw [hb] at hany
    exact absurd hany (by simp)

/-- Witness for claim C3: a configuration extending
./tsds-config/biome.json is detected as bundled. -/
theorem detectMode_wellTyped_extends_w :
    detectMode (ConfigFile.parsed (JSValue.obj
      [("extends", JSValue.arr [JSValue.str "./tsds-config/biome.json"])])) = Mode.bundled :=
  (detectMode_wellTyped_extends
      (JSValue.obj [("extends", JSValue.arr [JSValue.str "./tsds-config/biome.json"])])
      ["./tsds-config/biome.json"] (by decide)).mpr
    ⟨"./tsds-config/biome.json", by simp, by decide⟩

/-- Claim C10, counterexample: the configuration with extends equal to
["tsds-config", 5] is valid JSON whose extends field is not an array of
strings, yet detectMode returns bundled, not legacy: the matching string
entry is reached before the ill-typed one. -/
theorem detectMode_illTyped_bundled_cex :
    detectMode (ConfigFile.parsed (JSValue.obj
      [("extends", JSValue.arr [JSValue.str "tsds-config", JSValue.num 5])])) = Mode.bundled
    ∧ asStringList [JSValue.str "tsds-config", JSValue.num 5] = none := ⟨rfl, rfl⟩

/-- Claim C10, amended: detectMode is total with only the two return
values bundled and legacy, and the catch spans the whole inspection, so
every raised error during extends inspection, not only the parse failure,
yields legacy; an ill-typed extends array can still yield bundled when a
matching string entry precedes the first ill-typed entry. -/
theorem detectMode_total_and_catchAll :
    (∀ cf, detectMode cf = Mode.bundled ∨ detectMode cf = Mode.legacy)
    ∧ (∀ v, inspectExtends v = Except.error ()
        → detectMode (ConfigFile.parsed v) = Mode.legacy) := by
  constructor
  · intro cf
    cases cf with
    | absent => exact Or.inl rfl
    | unparsable => exact Or.inr rfl
    | parsed v =>
      cases hi : inspectExtends v with
      | error u => exact Or.inr (by simp [detectMode, hi])
      | ok m =>
        cases m with
        | bundled => exact Or.inl (by simp [detectMode, hi])
        | legacy => exact Or.inr (by simp [detectMode, hi])
  · intro v hv
    simp [detectMode, hv]

/-- Witness for claim C10: the inspection of extends equal to [5] raises,
and detectMode returns legacy. -/
theorem detectMode_total_and_catchAll_w :
    detectMode (ConfigFile.parsed (JSValue.obj
      [("extends", JSValue.arr [JSValue.num 5])])) = Mode.legacy :=
  detectMode_total_and_catchAll.2 _ rfl

/-- Claim C9: the two translations of the duplicated dispatch source, run
from src/src/command.ts and worker from src/unnamed/part_000, agree on the
mode decision and on the whole dispatch outcome for every environment. -/
theorem run_equals_duplicate :
    (∀ cf, detectMode cf = detectModeW cf) ∧ (∀ e, run e = runW e) :=
  ⟨fun _ => rfl, fun _ => rfl⟩

/-- Options record used by the concrete witness environments. -/
def sampleOpts : CommandOptions := { cwd := some "/proj", extra := 0 }

/-- Concrete environment: dry-run flag set on a supported platform. -/
def dryRunEnv : Env :=
  { platform := "linux", ostype := none, arch := "x64", args := ["--dry-run"],
    optDryRun := true, optLegacy := false, options := sampleOpts, processCwd := "/proc",
    configFile := ConfigFile.absent, biomeBin := "/bin/biome", defaultConfig := none }

/-- Concrete environment: bundled mode with a caller argument, no local
configuration file, no resolvable default configuration. -/
def bundledEnv : Env :=
  { platform := "linux", ostype := none, arch := "x64", args := ["--fix"],
    optDryRun := false, optLegacy := false, options := sampleOpts, processCwd := "/proc",
    configFile := ConfigFile.absent, biomeBin := "/bin/biome", defaultConfig := none }

/-- Concrete environment: bundled mode with a resolvable default
configuration path and no local configuration file. -/
def cfgEnv : Env :=
  { platform := "linux", ostype := none, arch := "x64", args := ["--fix"],
    optDryRun := false, optLegacy := false, options := sampleOpts, processCwd := "/proc",
    configFile := ConfigFile.absent, biomeBin := "/bin/biome",
    defaultConfig := some "/node_modules/tsds-config/biome.json" }

/-- Concrete environment: explicit legacy flag set. -/
def legacyEnv : Env :=
  { platform := "linux", ostype := none, arch := "x64", args := ["--legacy"],
    optDryRun := false, optLegacy := true, options := sampleOpts, processCwd := "/proc",
    configFile := ConfigFile.unparsable, biomeBin := "/bin/biome", defaultConfig := none }

/-- Helper: the outcome of the platform-guard branch. -/
theorem run_guard_eq (e : Env)
    (hg : (isWindows e && !(["x64", "arm64"].contains e.arch)) = true) :
    run e = { logs := [], eff := Eff.callback } := by
  simp only [run, hg]
  simp

/-- Helper: the outcome of the dry-run branch. -/
theorem run_dry_eq (e : Env)
    (hg : (isWindows e && !(["x64", "arm64"].contains e.arch)) = false)
    (hd : e.optDryRun = true) :
    run e = { logs := [dryRunMsg], eff := Eff.callback } := by
  simp only [run, hg, hd]
  simp

/-- Helper: the outcome of the explicit legacy-flag branch. -/
theorem run_legacyFlag_eq (e : Env)
    (hg : (isWindows e && !(["x64", "arm64"].contains e.arch)) = false)
    (hd : e.optDryRun = false)
    (hl : e.optLegacy = true) :
    run e = { logs := [legacyMsg], eff := Eff.spawn "npm" ["run", "format"] (mergedOptions e) } := by
  simp only [run, hg, hd, hl]
  simp

/-- Helper: the outcome of the detected-legacy branch. -/
theorem run_detectedLegacy_eq (e : Env)
    (hg : (isWindows e && !(["x64", "arm64"].contains e.arch)) = false)
    (hd : e.optDryRun = false)
    (hl : e.optLegacy = false)
    (hm : detectMode e.configFile = Mode.legacy) :
    run e = { logs := [legacyMsg, migrateMsg],
              eff := Eff.spawn "npm" ["run", "format"] (mergedOptions e) } := by
  simp only [run, hg, hd, hl, hm]
  simp

/-- Helper: the outcome of the bundled branch. -/
theorem run_bundled_eq (e : Env)
    (hg : (isWindows e && !(["x64", "arm64"].contains e.arch)) = false)
    (hd : e.optDryRun = false)
    (hl : e.optLegacy = false)
    (hm : detectMode e.configFile = Mode.bundled) :
    run e = { logs := [], eff := Eff.spawn e.biomeBin (bundledSpawnArgs e) (mergedOptions e) } := by
  simp only [run, hg, hd, hl, hm]
  simp

/-- Claim C4: when the platform guard fires, or the dry-run flag is set,
dispatch never reaches the spawn collaborator and invokes the completion
callback immediately; the guard is checked first (when it fires, not even
the dry-run message is printed), and the dry-run flag is checked before
any spawning branch. -/
theorem run_guard_dryRun_no_spawn (e : Env)
    (h : (isWindows e && !(["x64", "arm64"].contains e.arch)) = true ∨ e.optDryRun = true) :
    (run e).eff = Eff.callback
    ∧ ((isWindows e && !(["x64", "arm64"].contains e.arch)) = true →
        run e = { logs := [], eff := Eff.callback })
    ∧ ((isWindows e && !(["x64", "arm64"].contains e.arch)) = false → e.optDryRun = true →
        run e = { logs := [dryRunMsg], eff := Eff.callback }) := by
  cases hg : (isWindows e && !(["x64", "arm64"].contains e.arch)) with
  | true =>
    exact ⟨by rw [run_guard_eq e hg], fun _ => run_guard_eq e hg,
      fun hc => absurd hc (by simp)⟩
  | false =>
    have hd : e.optDryRun = true := by
      rcases h with h | h
      · rw [h] at hg
        exact absurd hg (by simp)
      · exact h
    exact ⟨by rw [run_dry_eq e hg hd], fun hc => absurd hc (by simp),
      fun _ _ => run_dry_eq e hg hd⟩

/-- Witness for claim C4: with the dry-run flag set, dispatch completes
without spawning. -/
theorem run_guard_dryRun_no_spawn_w : (run dryRunEnv).eff = Eff.callback :=
  (run_guard_dryRun_no_spawn dryRunEnv (Or.inr rfl)).1

/-- Claim C5: in bundled mode the spawned argument list is handed over
with the forwarded suffix equal to the caller arguments filtered by
keepArg, so none of the three control flags survives and the kept
arguments stay in input order (the filtered list is a sublist of the
input). -/
theorem run_bundled_forwards_filtered (e : Env)
    (hg : (isWindows e && !(["x64", "arm64"].contains e.arch)) = false)
    (hd : e.optDryRun = false)
    (hl : e.optLegacy = false)
    (hm : detectMode e.configFile = Mode.bundled) :
    (run e).eff = Eff.spawn e.biomeBin (bundledSpawnArgs e) (mergedOptions e)
    ∧ (∀ a ∈ e.args.filter keepArg, a ≠ "--legacy" ∧ a ≠ "--dry-run" ∧ a ≠ "-d")
    ∧ List.Sublist (e.args.filter keepArg) e.args := by
  refine ⟨?_, ?_, ?_⟩
  · rw [run_bundled_eq e hg hd hl hm]
  · intro a ha
    have hk : keepArg a = true := List.of_mem_filter ha
    simp only [keepArg, Bool.and_eq_true, bne_iff_ne, ne_eq] at hk
    exact ⟨hk.1.1, hk.1.2, hk.2⟩
  · exact List.filter_sublist e.args

/-- Witness for claim C5: the bundled environment spawns the resolved
binary with the constructed argument list. -/
theorem run_bundled_forwards_filtered_w :
    (run bundledEnv).eff
      = Eff.spawn bundledEnv.biomeBin (bundledSpawnArgs bundledEnv) (mergedOptions bundledEnv) :=
  (run_bundled_forwards_filtered bundledEnv rfl rfl rfl rfl).1

/-- Claim C6: the bundled argument list always begins with the three fixed
tokens; the config-path flag and the resolved path sit right after them
exactly when no local biome.json exists and the default configuration
resolved, and a failed resolution just drops the flag without aborting the
dispatch. -/
theorem run_bundled_config_path (e : Env)
    (hg : (isWindows e && !(["x64", "arm64"].contains e.arch)) = false)
    (hd : e.optDryRun = false)
    (hl : e.optLegacy = false)
    (hm : detectMode e.configFile = Mode.bundled) :
    (run e).eff = Eff.spawn e.biomeBin (bundledSpawnArgs e) (mergedOptions e)
    ∧ (bundledSpawnArgs e).take 3 = ["check", "--write", "--unsafe"]
    ∧ (e.configFile = ConfigFile.absent →
        bundledSpawnArgs e
          = ["check", "--write", "--unsafe"]
            ++ (match e.defaultConfig with
                | some p => ["--config-path", p]
                | none => [])
            ++ e.args.filter keepArg)
    ∧ (e.configFile ≠ ConfigFile.absent →
        bundledSpawnArgs e = ["check", "--write", "--unsafe"] ++ e.args.filter keepArg)
    ∧ (e.configFile = ConfigFile.absent → e.defaultConfig = none →
        bundledSpawnArgs e = ["check", "--write", "--unsafe"] ++ e.args.filter keepArg) := by
  refine ⟨?_, ?_, ?_, ?_, ?_⟩
  · rw [run_bundled_eq e hg hd hl hm]
  · have hc : bundledSpawnArgs e
        = "check" :: "--write" :: "--unsafe"
            :: ((if existsSyncBiome e.configFile then []
                 else match e.defaultConfig with
                   | some p => ["--config-path", p]
                   | none => [])
                ++ e.args.filter keepArg) := by
      simp [bundledSpawnArgs]
    rw [hc]
    rfl
  · intro ha
    cases hdc : e.defaultConfig with
    | some p => simp [bundledSpawnArgs, ha, existsSyncBiome, hdc]
    | none => simp [bundledSpawnArgs, ha, existsSyncBiome, hdc]
  · intro ha
    cases hcf : e.configFile with
    | absent => exact absurd hcf ha
    | unparsable => simp [bundledSpawnArgs, hcf, existsSyncBiome]
    | parsed v => simp [bundledSpawnArgs, hcf, existsSyncBiome]
  · intro ha hn
    simp [bundledSpawnArgs, ha, hn, existsSyncBiome]

/-- Witness for claim C6: with the file absent and the default
configuration resolved, the config-path flag follows the fixed tokens. -/
theorem run_bundled_config_path_w :
    bundledSpawnArgs cfgEnv
      = ["check", "--write", "--unsafe"]
        ++ (match cfgEnv.defaultConfig with
            | some p => ["--config-path", p]
            | none => [])
        ++ cfgEnv.args.filter keepArg :=
  (run_bundled_config_path cfgEnv rfl rfl rfl rfl).2.2.1 rfl

/-- Claim C7: whenever the legacy action is taken, either by the explicit
flag or by the detected mode, dispatch hands npm run format together with
the merged options and the unmodified callback to the spawn collaborator;
the caller arguments are never inspected (the effect is unchanged under
any replacement of the argument list), and with the explicit flag set the
configuration file is not consulted at all (the whole outcome is unchanged
under any replacement of the configuration state). -/
theorem run_legacy_spawns_npm (e : Env)
    (hg : (isWindows e && !(["x64", "arm64"].contains e.arch)) = false)
    (hd : e.optDryRun = false)
    (h : e.optLegacy = true ∨ detectMode e.configFile = Mode.legacy) :
    (run e).eff = Eff.spawn "npm" ["run", "format"] (mergedOptions e)
    ∧ (∀ e2 : Env, e2.platform = e.platform → e2.ostype = e.ostype → e2.arch = e.arch
        → e2.optDryRun = e.optDryRun → e2.optLegacy = e.optLegacy
        → e2.options = e.options → e2.processCwd = e.processCwd
        → e2.configFile = e.configFile
        → (run e2).eff = (run e).eff)
    ∧ (e.optLegacy = true →
        ∀ e2 : Env, e2.platform = e.platform → e2.ostype = e.ostype → e2.arch = e.arch
          → e2.optDryRun = e.optDryRun → e2.optLegacy = e.optLegacy
          → e2.options = e.options → e2.processCwd = e.processCwd
          → run e2 = run e) := by
  have hW : ∀ e2 : Env, e2.platform = e.platform → e2.ostype = e.ostype → e2.arch = e.arch →
      (isWindows e2 && !(["x64", "arm64"].contains e2.arch)) = false := by
    intro e2 hp ho ha
    have hx := hg
    simp only [isWindows] at hx ⊢
    rw [hp, ho, ha]
    exact hx
  have hM : ∀ e2 : Env, e2.options = e.options → e2.processCwd = e.processCwd →
      mergedOptions e2 = mergedOptions e := by
    intro e2 h1 h2
    simp [mergedOptions, resolvedCwd, h1, h2]
  refine ⟨?_, ?_, ?_⟩
  · rcases h with hl | hm
    · rw [run_legacyFlag_eq e hg hd hl]
    · cases hl2 : e.optLegacy with
      | true => rw [run_legacyFlag_eq e hg hd hl2]
      | false => rw [run_detectedLegacy_eq e hg hd hl2 hm]
  · intro e2 hp ho ha hdry hleg hopt hcwd hcf
    have hg2 := hW e2 hp ho ha
    have hd2 : e2.optDryRun = false := by rw [hdry, hd]
    rcases h with hl | hm
    · have hl2 : e2.optLegacy = true := by rw [hleg, hl]
      rw [run_legacyFlag_eq e hg hd hl, run_legacyFlag_eq e2 hg2 hd2 hl2, hM e2 hopt hcwd]
    · cases hl2 : e.optLegacy with
      | true =>
        have hl3 : e2.optLegacy = true := by rw [hleg, hl2]
        rw [run_legacyFlag_eq e hg hd hl2, run_legacyFlag_eq e2 hg2 hd2 hl3, hM e2 hopt hcwd]
      | false =>
        have hl3 : e2.optLegacy = false := by rw [hleg, hl2]
        have hm2 : detectMode e2.configFile = Mode.legacy := by rw [hcf, hm]
        rw [run_detectedLegacy_eq e hg hd hl2 hm,
          run_detectedLegacy_eq e2 hg2 hd2 hl3 hm2, hM e2 hopt hcwd]
  · intro hl e2 hp ho ha hdry hleg hopt hcwd
    have hg2 := hW e2 hp ho ha
    have hd2 : e2.optDryRun = false := by rw [hdry, hd]
    have hl2 : e2.optLegacy = true := by rw [hleg, hl]
    rw [run_legacyFlag_eq e hg hd hl, run_legacyFlag_eq e2 hg2 hd2 hl2, hM e2 hopt hcwd]

/-- Witness for claim C7: with the explicit legacy flag, dispatch spawns
npm run format with the merged options. -/
theorem run_legacy_spawns_npm_w :
    (run legacyEnv).eff = Eff.spawn "npm" ["run", "format"] (mergedOptions legacyEnv) :=
  (run_legacy_spawns_npm legacyEnv rfl rfl (Or.inl rfl)).1

/-- Claim C8: dispatch is a total function whose outcome uses the
completion callback exactly once, either directly or through a single
hand-off to the spawn collaborator, and the outcome is always one of the
five pairwise distinct terminal-branch actions. -/
theorem run_single_callback_five_branches (e : Env) :
    callbackUses (run e).eff = 1
    ∧ (run e = { logs := [], eff := Eff.callback }
       ∨ run e = { logs := [dryRunMsg], eff := Eff.callback }
       ∨ run e = { logs := [legacyMsg], eff := Eff.spawn "npm" ["run", "format"] (mergedOptions e) }
       ∨ run e = { logs := [legacyMsg, migrateMsg],
                   eff := Eff.spawn "npm" ["run", "format"] (mergedOptions e) }
       ∨ run e = { logs := [], eff := Eff.spawn e.biomeBin (bundledSpawnArgs e) (mergedOptions e) })
    ∧ List.Pairwise (fun a b => a ≠ b)
        ([{ logs := [], eff := Eff.callback },
          { logs := [dryRunMsg], eff := Eff.callback },
          { logs := [legacyMsg], eff := Eff.spawn "npm" ["run", "format"] (mergedOptions e) },
          { logs := [legacyMsg, migrateMsg],
            eff := Eff.spawn "npm" ["run", "format"] (mergedOptions e) },
          { logs := [], eff := Eff.spawn e.biomeBin (bundledSpawnArgs e) (mergedOptions e) }]
          : List Action) := by
  have hfive : run e = { logs := [], eff := Eff.callback }
      ∨ run e = { logs := [dryRunMsg], eff := Eff.callback }
      ∨ run e = { logs := [legacyMsg], eff := Eff.spawn "npm" ["run", "format"] (mergedOptions e) }
      ∨ run e = { logs := [legacyMsg, migrateMsg],
                  eff := Eff.spawn "npm" ["run", "format"] (mergedOptions e) }
      ∨ run e = { logs := [],
                  eff := Eff.spawn e.biomeBin (bundledSpawnArgs e) (mergedOptions e) } := by
    cases hg : isWindows e && !(["x64", "arm64"].contains e.arch) with
    | true => exact Or.inl (run_guard_eq e hg)
    | false =>
      cases hd : e.optDryRun with
      | true => exact Or.inr (Or.inl (run_dry_eq e hg hd))
      | false =>
        cases hl : e.optLegacy with
        | true => exact Or.inr (Or.inr (Or.inl (run_legacyFlag_eq e hg hd hl)))
        | false =>
          cases hm : detectMode e.configFile with
          | legacy =>
            exact Or.inr (Or.inr (Or.inr (Or.inl (run_detectedLegacy_eq e hg hd hl hm))))
          | bundled =>
            exact Or.inr (Or.inr (Or.inr (Or.inr (run_bundled_eq e hg hd hl hm))))
  refine ⟨?_, hfive, ?_⟩
  · rcases hfive with h5 | h5 | h5 | h5 | h5 <;> rw [h5] <;> rfl
  · simp [List.pairwise_cons, Action.mk.injEq, dryRunMsg, legacyMsg, migrateMsg]

end TsdsBiome
